import Mathlib

/-
Verification of the LS8 CPU emulator (ls8/cpu.py).

The machine state is embedded shallowly: Python's unbounded integers become
`Int`, the 256-cell ram and the 8-slot register file become `List Int`, and
every fallible Python operation (list subscription, dict lookup in the
branchtable, the ALU's `raise`) is modelled in the `Except PyErr` monad.
Python list subscription accepts negative indices (counting from the end)
and raises IndexError outside `[-len, len)`; `pyIndex` reproduces exactly
that resolution rule.  Output produced by `print` calls is accumulated in an
`output` field, one list entry per printed line.
-/

/-- The exceptions the emulator can raise: list IndexError, dict KeyError
(carrying the missing key, as Python's KeyError does), and a plain
`raise Exception(msg)`. -/
inductive PyErr where
  | indexError : PyErr
  | keyError : Int → PyErr
  | pyException : String → PyErr
deriving DecidableEq

/-- Python list-index resolution for a list of length `n`: indices in
`[0, n)` are used as written, indices in `[-n, 0)` count from the end,
anything else is an IndexError (`none`). -/
def pyIndex (n : Nat) (i : Int) : Option Nat :=
  if 0 ≤ i ∧ i < (n : Int) then some i.toNat
  else if 0 ≤ i + (n : Int) ∧ i < 0 then some (i + (n : Int)).toNat
  else none

/-- Python list read `xs[i]`. -/
def pyGet (xs : List Int) (i : Int) : Except PyErr Int :=
  match pyIndex xs.length i with
  | some k => Except.ok (xs.getD k 0)
  | none => Except.error PyErr.indexError

/-- Python list write `xs[i] = v`. -/
def pySet (xs : List Int) (i : Int) (v : Int) : Except PyErr (List Int) :=
  match pyIndex xs.length i with
  | some k => Except.ok (xs.set k v)
  | none => Except.error PyErr.indexError

lemma pyIndex_lt {n : Nat} {i : Int} {k : Nat} (h : pyIndex n i = some k) :
    k < n := by
  unfold pyIndex at h
  split at h
  · injection h with h; omega
  · split at h
    · injection h with h; omega
    · cases h

lemma pyIndex_of_nonneg {n : Nat} {i : Int} {k : Nat} (h0 : 0 ≤ i)
    (h : pyIndex n i = some k) : (k : Int) = i ∧ i < (n : Int) := by
  unfold pyIndex at h
  split at h
  · injection h with h; omega
  · split at h
    · injection h with h; omega
    · cases h

lemma pyIndex_some_of_bounds {n : Nat} {i : Int} (h0 : 0 ≤ i)
    (h1 : i < (n : Int)) : pyIndex n i = some i.toNat := by
  unfold pyIndex
  rw [if_pos ⟨h0, h1⟩]

lemma getD_set_self (xs : List Int) (k : Nat) (v : Int) (h : k < xs.length) :
    (xs.set k v).getD k 0 = v := by
  induction xs generalizing k with
  | nil => simp at h
  | cons x xs ih =>
    cases k with
    | zero => rfl
    | succ k => simpa using ih k (by simpa using h)

lemma getD_set_ne (xs : List Int) (k j : Nat) (v : Int) (h : k ≠ j) :
    (xs.set k v).getD j 0 = xs.getD j 0 := by
  induction xs generalizing k j with
  | nil => rfl
  | cons x xs ih =>
    cases k with
    | zero =>
      cases j with
      | zero => exact absurd rfl h
      | succ j => rfl
    | succ k =>
      cases j with
      | zero => rfl
      | succ j => simpa using ih k j (by omega)

lemma pyGet_eq {xs : List Int} {i : Int} {k : Nat}
    (hk : pyIndex xs.length i = some k) :
    pyGet xs i = Except.ok (xs.getD k 0) := by
  unfold pyGet
  rw [hk]

lemma pyGet_ok_inv {xs : List Int} {i v : Int} (h : pyGet xs i = Except.ok v) :
    ∃ k : Nat, pyIndex xs.length i = some k ∧ k < xs.length ∧ xs.getD k 0 = v := by
  unfold pyGet at h
  cases hk : pyIndex xs.length i with
  | none => rw [hk] at h; cases h
  | some k =>
    rw [hk] at h
    injection h with h
    exact ⟨k, rfl, pyIndex_lt hk, h⟩

lemma pySet_ok_inv {xs ys : List Int} {i v : Int}
    (h : pySet xs i v = Except.ok ys) :
    ∃ k : Nat, pyIndex xs.length i = some k ∧ k < xs.length ∧ ys = xs.set k v := by
  unfold pySet at h
  cases hk : pyIndex xs.length i with
  | none => rw [hk] at h; cases h
  | some k =>
    rw [hk] at h
    injection h with h
    exact ⟨k, rfl, pyIndex_lt hk, h.symm⟩

lemma length_pySet {xs ys : List Int} {i v : Int}
    (h : pySet xs i v = Except.ok ys) : ys.length = xs.length := by
  obtain ⟨k, _, _, rfl⟩ := pySet_ok_inv h
  exact List.length_set xs k v

lemma pyGet_pySet_self {xs ys : List Int} {i v : Int}
    (h : pySet xs i v = Except.ok ys) : pyGet ys i = Except.ok v := by
  obtain ⟨k, hk, hlt, rfl⟩ := pySet_ok_inv h
  have hk2 : pyIndex (xs.set k v).length i = some k := by
    rw [List.length_set]; exact hk
  rw [pyGet_eq hk2, getD_set_self xs k v hlt]

lemma pyGet_pySet_other {xs ys : List Int} {i j v : Int} {k kj : Nat}
    (h : pySet xs i v = Except.ok ys)
    (hk : pyIndex xs.length i = some k)
    (hj : pyIndex xs.length j = some kj)
    (hne : k ≠ kj) : pyGet ys j = pyGet xs j := by
  obtain ⟨k2, hk2, hlt2, rfl⟩ := pySet_ok_inv h
  rw [hk] at hk2
  injection hk2 with hk2
  subst hk2
  have hj2 : pyIndex (xs.set k v).length j = some kj := by
    rw [List.length_set]; exact hj
  rw [pyGet_eq hj2, pyGet_eq hj, getD_set_ne xs k kj v hne]

lemma ok_bind {α β : Type} (a : α) (f : α → Except PyErr β) :
    (Except.ok a >>= f : Except PyErr β) = f a := rfl

lemma error_bind {α β : Type} (e : PyErr) (f : α → Except PyErr β) :
    (Except.error e >>= f : Except PyErr β) = Except.error e := rfl

lemma pure_eq_ok {α : Type} (a : α) : (pure a : Except PyErr α) = Except.ok a := rfl

lemma bind_ok_inv {α β : Type} {x : Except PyErr α} {f : α → Except PyErr β}
    {b : β} (h : (x >>= f) = Except.ok b) :
    ∃ a, x = Except.ok a ∧ f a = Except.ok b := by
  cases x with
  | ok a => exact ⟨a, rfl, h⟩
  | error e => rw [error_bind] at h; cases h

lemma pure_ok_inv {α : Type} {a b : α} (h : (pure a : Except PyErr α) = Except.ok b) :
    a = b := by
  rw [pure_eq_ok] at h
  injection h

/-
The machine itself, translated from class CPU in ls8/cpu.py.  The attribute
`self.SP` is assigned `len(self.reg) - 1 = 7` in the constructor and never
reassigned, so every occurrence of `self.reg[self.SP]` is rendered as
`pyGet/pySet _ 7`.  `print` appends one line to `output`.
-/

/-- Machine state: the fields of the Python CPU object, plus the lines the
object has printed so far. -/
structure CPU where
  running : Bool
  ram : List Int
  reg : List Int
  PC : Int
  FL : Int
  output : List String

/-- Opcode LDI = 0b10000010. -/
def LDI : Int := 0b10000010
/-- Opcode PRN = 0b01000111. -/
def PRN : Int := 0b01000111
/-- Opcode MUL = 0b10100010. -/
def MUL : Int := 0b10100010
/-- Opcode HLT = 0b00000001. -/
def HLT : Int := 0b00000001
/-- Opcode PUSH = 0b01000101. -/
def PUSH : Int := 0b01000101
/-- Opcode POP = 0b01000110. -/
def POP : Int := 0b01000110
/-- Opcode CALL = 0b01010000. -/
def CALL : Int := 0b01010000
/-- Opcode RET = 0b00010001. -/
def RET : Int := 0b00010001
/-- Opcode ADD = 0b10100000. -/
def ADD : Int := 0b10100000
/-- Opcode CMP = 0b10100111. -/
def CMP : Int := 0b10100111
/-- Opcode JMP = 0b01010100. -/
def JMP : Int := 0b01010100
/-- Opcode JEQ = 0b01010101. -/
def JEQ : Int := 0b01010101
/-- Opcode JNE = 0b01010110. -/
def JNE : Int := 0b01010110

/-- `ram_read`. -/
def CPU.ram_read (self : CPU) (MAR : Int) : Except PyErr Int :=
  pyGet self.ram MAR

/-- `ram_write`. -/
def CPU.ram_write (self : CPU) (MAR MDR : Int) : Except PyErr CPU := do
  let ram1 ← pySet self.ram MAR MDR
  pure { self with ram := ram1 }

/-- `alu`: ADD accumulates into `reg[reg_a]` with Python's unbounded
integers (no byte truncation in the source); CMP sets FL to 1 on equality
and leaves it untouched otherwise; any other op raises. -/
def CPU.alu (self : CPU) (op : String) (reg_a reg_b : Int) : Except PyErr CPU :=
  if op = "ADD" then do
    let va ← pyGet self.reg reg_a
    let vb ← pyGet self.reg reg_b
    let reg1 ← pySet self.reg reg_a (va + vb)
    pure { self with reg := reg1 }
  else if op = "CMP" then do
    let va ← pyGet self.reg reg_a
    let vb ← pyGet self.reg reg_b
    if va = vb then pure { self with FL := 0b00000001 } else pure self
  else Except.error (PyErr.pyException "Unsupported ALU operation")

/-- `ldi`: `reg[ram[PC+1]] = ram[PC+2]; PC += 3`. -/
def CPU.ldi (self : CPU) : Except PyErr CPU := do
  let operand_a ← self.ram_read (self.PC + 1)
  let operand_b ← self.ram_read (self.PC + 2)
  let reg1 ← pySet self.reg operand_a operand_b
  pure { self with reg := reg1, PC := self.PC + 3 }

/-- `prn`: prints `reg[ram[PC+1]]` in decimal; `PC += 2`. -/
def CPU.prn (self : CPU) : Except PyErr CPU := do
  let print_val ← self.ram_read (self.PC + 1)
  let v ← pyGet self.reg print_val
  pure { self with output := self.output ++ [toString v], PC := self.PC + 2 }

/-- `mul`: prints a debugging line "a * b =", then
`reg[ram[PC+1]] *= reg[ram[PC+2]]` (unbounded product, no truncation);
`PC += 3`. -/
def CPU.mul (self : CPU) : Except PyErr CPU := do
  let operand_a ← self.ram_read (self.PC + 1)
  let operand_b ← self.ram_read (self.PC + 2)
  let pa ← pyGet self.reg operand_a
  let pb ← pyGet self.reg operand_b
  let va ← pyGet self.reg operand_a
  let vb ← pyGet self.reg operand_b
  let reg1 ← pySet self.reg operand_a (va * vb)
  pure { self with reg := reg1,
                   output := self.output ++ [toString pa ++ " * " ++ toString pb ++ " ="],
                   PC := self.PC + 3 }

/-- `hlt`: `running = False; PC += 1`. -/
def CPU.hlt (self : CPU) : Except PyErr CPU :=
  pure { self with running := false, PC := self.PC + 1 }

/-- `push`: reads the register operand, decrements `reg[7]`, then writes the
register's value at `ram[reg[7]]`; `PC += 2`. -/
def CPU.push (self : CPU) : Except PyErr CPU := do
  let register ← pyGet self.ram (self.PC + 1)
  let sp ← pyGet self.reg 7
  let reg1 ← pySet self.reg 7 (sp - 1)
  let reg_value ← pyGet reg1 register
  let sp1 ← pyGet reg1 7
  let ram1 ← pySet self.ram sp1 reg_value
  pure { self with reg := reg1, ram := ram1, PC := self.PC + 2 }

/-- `pop`: reads `ram[reg[7]]`, stores it into the operand register, then
increments `reg[7]` (re-reading it, which matters when the operand register
is 7 itself); `PC += 2`. -/
def CPU.pop (self : CPU) : Except PyErr CPU := do
  let sp ← pyGet self.reg 7
  let value ← pyGet self.ram sp
  let register ← pyGet self.ram (self.PC + 1)
  let reg1 ← pySet self.reg register value
  let sp2 ← pyGet reg1 7
  let reg2 ← pySet reg1 7 (sp2 + 1)
  pure { self with reg := reg2, PC := self.PC + 2 }

/-- `call`: decrements `reg[7]`, writes `PC + 2` at `ram[reg[7]]`, then
reads the register operand from the (possibly just-overwritten) ram and
jumps to that register's (post-decrement) value. -/
def CPU.call (self : CPU) : Except PyErr CPU := do
  let sp ← pyGet self.reg 7
  let reg1 ← pySet self.reg 7 (sp - 1)
  let sp1 ← pyGet reg1 7
  let ram1 ← pySet self.ram sp1 (self.PC + 2)
  let register ← pyGet ram1 (self.PC + 1)
  let v ← pyGet reg1 register
  pure { self with reg := reg1, ram := ram1, PC := v }

/-- `ret`: `PC = ram[reg[7]]; reg[7] += 1`. -/
def CPU.ret (self : CPU) : Except PyErr CPU := do
  let sp ← pyGet self.reg 7
  let return_address ← pyGet self.ram sp
  let sp2 ← pyGet self.reg 7
  let reg1 ← pySet self.reg 7 (sp2 + 1)
  pure { self with reg := reg1, PC := return_address }

/-- `add`: fetches the two register operands and delegates to
`alu "ADD"`; `PC += 3`. -/
def CPU.add (self : CPU) : Except PyErr CPU := do
  let reg1 ← pyGet self.ram (self.PC + 1)
  let reg2 ← pyGet self.ram (self.PC + 2)
  let m1 ← self.alu "ADD" reg1 reg2
  pure { m1 with PC := m1.PC + 3 }

/-- `compare`: fetches the two register operands and delegates to
`alu "CMP"`; `PC += 3`. -/
def CPU.compare (self : CPU) : Except PyErr CPU := do
  let reg1 ← pyGet self.ram (self.PC + 1)
  let reg2 ← pyGet self.ram (self.PC + 2)
  let m1 ← self.alu "CMP" reg1 reg2
  pure { m1 with PC := m1.PC + 3 }

/-- `jmp`: `PC = reg[ram[PC+1]]`. -/
def CPU.jmp (self : CPU) : Except PyErr CPU := do
  let register ← pyGet self.ram (self.PC + 1)
  let v ← pyGet self.reg register
  pure { self with PC := v }

/-- `jeq`: if `FL & 0b00000001 == 1` jump to `reg[ram[PC+1]]`, else
`PC += 2`.  Python's `FL & 1` equals `FL mod 2` (Euclidean remainder) for
every integer, which is how the low bit test is rendered here. -/
def CPU.jeq (self : CPU) : Except PyErr CPU := do
  let register ← pyGet self.ram (self.PC + 1)
  if self.FL % 2 = 1 then do
    let v ← pyGet self.reg register
    pure { self with PC := v }
  else
    pure { self with PC := self.PC + 2 }

/-- `jne`: if `FL & 0b00000001 == 0` jump to `reg[ram[PC+1]]`, else
`PC += 2`. -/
def CPU.jne (self : CPU) : Except PyErr CPU := do
  let register ← pyGet self.ram (self.PC + 1)
  if self.FL % 2 = 0 then do
    let v ← pyGet self.reg register
    pure { self with PC := v }
  else
    pure { self with PC := self.PC + 2 }

/-- The constructor-built branchtable: the 13 supported opcodes and their
handlers; any other key is absent (Python dict lookup then raises
KeyError). -/
def branchtable (ir : Int) : Option (CPU → Except PyErr CPU) :=
  if ir = LDI then some CPU.ldi
  else if ir = PRN then some CPU.prn
  else if ir = MUL then some CPU.mul
  else if ir = HLT then some CPU.hlt
  else if ir = PUSH then some CPU.push
  else if ir = POP then some CPU.pop
  else if ir = CALL then some CPU.call
  else if ir = RET then some CPU.ret
  else if ir = ADD then some CPU.add
  else if ir = CMP then some CPU.compare
  else if ir = JMP then some CPU.jmp
  else if ir = JEQ then some CPU.jeq
  else if ir = JNE then some CPU.jne
  else none

/-- One iteration of the `run` while-loop body: fetch `IR = ram[PC]`, then
`self.branchtable[IR]` — a dict subscription, so an unregistered opcode
raises `KeyError(IR)`; the source's `else` arm (print and exit) is dead
code because every stored handler is truthy.  A registered handler is
invoked. -/
def step (m : CPU) : Except PyErr CPU := do
  let IR ← m.ram_read m.PC
  match branchtable IR with
  | some f => f m
  | none => Except.error (PyErr.keyError IR)

/-- The `run` while-loop, fuelled for termination: `Except.ok (some m)` is a
normal exit (running became false), `Except.ok none` means the fuel ran out
with the loop still going (a model artifact, not a Python outcome), and
`Except.error e` is an uncaught exception escaping `run`. -/
def run (fuel : Nat) (m : CPU) : Except PyErr (Option CPU) :=
  match fuel with
  | 0 => if m.running then Except.ok none else Except.ok (some m)
  | Nat.succ f => if m.running then step m >>= run f else Except.ok (some m)

/-- Iterated loop bodies (without the `running` check), to name the machine
state reached after `n` executed instructions. -/
def stepN (n : Nat) (m : CPU) : Except PyErr CPU :=
  match n with
  | 0 => Except.ok m
  | Nat.succ k => step m >>= stepN k

/-- The ram-filling loop of `load`: `ram[address] = b; address += 1` for
each program byte.  Parsing the program text file (and `sys.argv` handling)
is the loader boundary the spec places outside the core; the byte sequence
it produces is taken here as the argument. -/
def loadLoop (ram : List Int) (address : Nat) : List Int → List Int
  | [] => ram
  | b :: bs => loadLoop (ram.set address b) (address + 1) bs

/-- `load`, applied to an already-parsed program image. -/
def CPU.load (self : CPU) (prog : List Int) : CPU :=
  { self with ram := loadLoop self.ram 0 prog }

/-- The constructor: 256 zeroed ram cells, 8 zeroed registers with
`reg[7] = 255`, `PC = 0`, `FL = 0`, running. -/
def initCPU : CPU :=
  { running := true
    ram := List.replicate 256 0
    reg := (List.replicate 8 0).set 7 255
    PC := 0
    FL := 0
    output := [] }

set_option maxRecDepth 100000
set_option maxHeartbeats 2000000

/-
Concrete program images used in the closed theorems below.
-/

/-- Program LDI R0,8; LDI R1,9; MUL R0,R1; PRN R0; HLT. -/
def mulDemoProg : List Int := [130, 0, 8, 130, 1, 9, 162, 0, 1, 71, 0, 1]

/-- Program LDI R0,200; LDI R1,200; ADD R0,R1. -/
def addWrapProg : List Int := [130, 0, 200, 130, 1, 200, 160, 0, 1]

/-- Program LDI R0,16; LDI R1,16; MUL R0,R1. -/
def mulWrapProg : List Int := [130, 0, 16, 130, 1, 16, 162, 0, 1]

/-- Program holding the single unregistered opcode byte 255 at address 0. -/
def badOpProgA : List Int := [255]

/-- Program LDI R0,0 then the unregistered opcode byte 255 at address 3. -/
def badOpProgB : List Int := [130, 0, 0, 255]

/-- Program LDI R0,128; ADD R0,R0; JMP R0 — drives the PC to 256. -/
def pcEscapeProg : List Int := [130, 0, 128, 160, 0, 0, 84, 0]

/-- Program LDI with register operand byte 8 (only registers 0–7 exist). -/
def badRegProg : List Int := [130, 8, 5]

/-- Claim C1, counterexample: the spec's modular law fails on the code.
Loading 200 into R0 and R1 and executing ADD leaves R0 = 400, not
(200 + 200) mod 256 = 144; loading 16 and 16 and executing MUL leaves
R0 = 256, not (16 * 16) mod 256 = 0.  The handlers use Python's unbounded
integers and never truncate to byte width. -/
theorem add_mul_mod256_cex :
    (stepN 3 (initCPU.load addWrapProg)).map (fun m => pyGet m.reg 0) =
      Except.ok (Except.ok 400) ∧
    (stepN 3 (initCPU.load mulWrapProg)).map (fun m => pyGet m.reg 0) =
      Except.ok (Except.ok 256) ∧
    ((400 : Int) ≠ (200 + 200) % 256 ∧ (256 : Int) ≠ (16 * 16) % 256) :=
  ⟨rfl, rfl, by decide⟩

/-- Claim C2, counterexample: the demo program does not emit exactly one
line.  The MUL handler contains a debugging `print` of "8 * 9 =", so the
run emits two lines, and the full output list differs from `["72"]`. -/
theorem mulDemo_output_cex :
    (run 10 (initCPU.load mulDemoProg)).map (fun r => r.map (fun m => m.output)) =
      Except.ok (some ["8 * 9 =", "72"]) ∧
    (["8 * 9 =", "72"] : List String) ≠ ["72"] :=
  ⟨rfl, by decide⟩

/-- Claim C2, amended: running the demo program from a fresh machine halts
normally with the Running flag false, emitting exactly the two lines
"8 * 9 =" (the MUL handler's debugging print) and "72" (from PRN), in that
order. -/
theorem mulDemo_behavior :
    (run 10 (initCPU.load mulDemoProg)).map
        (fun r => r.map (fun m => (m.output, m.running))) =
      Except.ok (some (["8 * 9 =", "72"], false)) := rfl

/-- Claim C3, counterexample: the fault raised on an unregistered opcode
does not identify the current PC.  Two programs that hit the unregistered
byte 255 at different PCs (0 for the first, 3 for the second, as the third
and fourth conjuncts show) produce literally identical fault values
`KeyError 255`, so the report determines the offending byte but not the PC
(and the source's `f"{IR} - command is not available"` message is dead code
that would not mention the PC either). -/
theorem unsupported_opcode_fault_cex :
    run 10 (initCPU.load badOpProgA) = Except.error (PyErr.keyError 255) ∧
    run 10 (initCPU.load badOpProgB) = Except.error (PyErr.keyError 255) ∧
    (stepN 0 (initCPU.load badOpProgA)).map (fun m => m.PC) = Except.ok 0 ∧
    (stepN 1 (initCPU.load badOpProgB)).map (fun m => m.PC) = Except.ok 3 ∧
    run 10 (initCPU.load badOpProgA) = run 10 (initCPU.load badOpProgB) :=
  ⟨rfl, rfl, rfl, rfl, rfl⟩

/-- Claim C8, counterexample: the PC does not stay below 256 while the
machine is running.  After LDI R0,128; ADD R0,R0; JMP R0 the machine is
still running with PC = 256, the next fetch aborts with an IndexError, and
so does the whole `run` loop on this program. -/
theorem pc_bound_cex :
    (stepN 3 (initCPU.load pcEscapeProg)).map (fun m => (m.running, m.PC)) =
      Except.ok (true, 256) ∧
    stepN 4 (initCPU.load pcEscapeProg) = Except.error PyErr.indexError ∧
    run 10 (initCPU.load pcEscapeProg) = Except.error PyErr.indexError ∧
    ¬ ((256 : Int) < 256) :=
  ⟨rfl, rfl, rfl, by decide⟩

/-- Claim C10: register operand bytes are not validated or masked.  The
program LDI with register operand 8 makes the handler index the 8-element
register file out of range, and the run aborts with an IndexError (not a
reported fault, not a wrapped register access) already at its first
instruction. -/
theorem unchecked_register_operand :
    run 4 (initCPU.load badRegProg) = Except.error PyErr.indexError ∧
    CPU.ldi (initCPU.load badRegProg) = Except.error PyErr.indexError :=
  ⟨rfl, rfl⟩

/-- Claim C1, amended: with registers holding `va` and `vb`, executing ADD
stores exactly `va + vb` in the destination register and executing MUL
stores exactly `va * vb` — the exact integer results, with no reduction
mod 256 (Python integers are unbounded and the handlers never truncate). -/
theorem add_mul_exact (m m1 n1 : CPU) (a b va vb : Int)
    (ha : pyGet m.ram (m.PC + 1) = Except.ok a)
    (hb : pyGet m.ram (m.PC + 2) = Except.ok b)
    (hva : pyGet m.reg a = Except.ok va)
    (hvb : pyGet m.reg b = Except.ok vb)
    (hadd : m.add = Except.ok m1)
    (hmul : m.mul = Except.ok n1) :
    pyGet m1.reg a = Except.ok (va + vb) ∧ pyGet n1.reg a = Except.ok (va * vb) := by
  constructor
  · unfold CPU.add CPU.alu at hadd
    rw [ha, ok_bind, hb, ok_bind, if_pos rfl, hva, ok_bind, hvb, ok_bind] at hadd
    obtain ⟨mA, hA, hfin⟩ := bind_ok_inv hadd
    obtain ⟨reg1, hset, hpure⟩ := bind_ok_inv hA
    have hmA := pure_ok_inv hpure
    have hm1 := pure_ok_inv hfin
    rw [← hm1, ← hmA]
    exact pyGet_pySet_self hset
  · unfold CPU.mul CPU.ram_read at hmul
    simp only [ha, hb, hva, hvb, ok_bind] at hmul
    obtain ⟨reg1, hset, hpure⟩ := bind_ok_inv hmul
    have hn1 := pure_ok_inv hpure
    rw [← hn1]
    exact pyGet_pySet_self hset

/-- Witness machine for the ADD/MUL law: R0 = R1 = 200, program bytes
ADD R0,R1 at address 0. -/
def addMulW : CPU :=
  { initCPU.load [160, 0, 1] with reg := [200, 200, 0, 0, 0, 0, 0, 255] }

/-- Result of executing ADD on the witness machine. -/
def addMulW1 : CPU := ((CPU.add addMulW).toOption).getD initCPU

/-- Result of executing MUL on the witness machine. -/
def addMulW2 : CPU := ((CPU.mul addMulW).toOption).getD initCPU

theorem add_mul_exact_witness :
    pyGet addMulW1.reg 0 = Except.ok 400 ∧ pyGet addMulW2.reg 0 = Except.ok 40000 :=
  add_mul_exact addMulW addMulW1 addMulW2 0 1 200 200 rfl rfl rfl rfl rfl rfl

/-- Claim C4: executing CMP with operand registers holding `va` and `vb`
sets the flags byte to exactly 1 (Equal bit set) when `va = vb` and leaves
the flags byte entirely unchanged when `va ≠ vb`; consequently a set Equal
bit survives any subsequent unequal CMP (the latched-Equal behavior). -/
theorem cmp_flag_semantics (m m1 : CPU) (a b va vb : Int)
    (ha : pyGet m.ram (m.PC + 1) = Except.ok a)
    (hb : pyGet m.ram (m.PC + 2) = Except.ok b)
    (hva : pyGet m.reg a = Except.ok va)
    (hvb : pyGet m.reg b = Except.ok vb)
    (hcmp : m.compare = Except.ok m1) :
    m1.FL = (if va = vb then 1 else m.FL) ∧ m1.PC = m.PC + 3 ∧
    (m.FL % 2 = 1 → m1.FL % 2 = 1) := by
  unfold CPU.compare CPU.alu at hcmp
  rw [ha, ok_bind, hb, ok_bind, if_neg (by decide), if_pos rfl, hva, ok_bind,
    hvb, ok_bind] at hcmp
  by_cases hvv : va = vb
  · rw [if_pos hvv, pure_eq_ok, ok_bind] at hcmp
    have hm1 := pure_ok_inv hcmp
    rw [← hm1, if_pos hvv]
    exact ⟨rfl, rfl, fun _ => rfl⟩
  · rw [if_neg hvv, pure_eq_ok, ok_bind] at hcmp
    have hm1 := pure_ok_inv hcmp
    rw [← hm1, if_neg hvv]
    exact ⟨rfl, rfl, fun h => h⟩

/-- Witness machine for the CMP law: R0 = R1 = 5, program bytes CMP R0,R1. -/
def cmpW : CPU :=
  { initCPU.load [167, 0, 1] with reg := [5, 5, 0, 0, 0, 0, 0, 255] }

/-- Result of executing CMP on the witness machine. -/
def cmpW1 : CPU := ((CPU.compare cmpW).toOption).getD initCPU

theorem cmp_flag_semantics_witness :
    cmpW1.FL = (if (5 : Int) = 5 then 1 else cmpW.FL) ∧ cmpW1.PC = cmpW.PC + 3 ∧
    (cmpW.FL % 2 = 1 → cmpW1.FL % 2 = 1) :=
  cmp_flag_semantics cmpW cmpW1 0 1 5 5 rfl rfl rfl rfl rfl

/-- Claim C5: with the register operand byte `r` at `ram[PC+1]`, JEQ jumps
to `reg[r]` exactly when the Equal bit (flags mod 2) is 1 and otherwise
advances PC by exactly 2; JNE jumps to `reg[r]` exactly when the Equal bit
is 0 and otherwise advances PC by exactly 2.  (`m1` is the machine after
JEQ, `n1` the machine after JNE, both executed from the same state `m`.) -/
theorem jeq_jne_branch (m m1 n1 : CPU) (r : Int)
    (hr : pyGet m.ram (m.PC + 1) = Except.ok r)
    (hjeq : m.jeq = Except.ok m1)
    (hjne : m.jne = Except.ok n1) :
    ((m.FL % 2 = 1 → pyGet m.reg r = Except.ok m1.PC) ∧
     (m.FL % 2 ≠ 1 → m1.PC = m.PC + 2)) ∧
    ((m.FL % 2 = 0 → pyGet m.reg r = Except.ok n1.PC) ∧
     (m.FL % 2 ≠ 0 → n1.PC = m.PC + 2)) := by
  unfold CPU.jeq at hjeq
  unfold CPU.jne at hjne
  rw [hr, ok_bind] at hjeq hjne
  constructor
  · by_cases h1 : m.FL % 2 = 1
    · rw [if_pos h1] at hjeq
      obtain ⟨v, hv, hpure⟩ := bind_ok_inv hjeq
      have hm1 := pure_ok_inv hpure
      refine ⟨fun _ => ?_, fun hc => absurd h1 hc⟩
      rw [← hm1]
      exact hv
    · rw [if_neg h1, pure_eq_ok] at hjeq
      injection hjeq with hm1
      refine ⟨fun hc => absurd hc h1, fun _ => ?_⟩
      rw [← hm1]
  · by_cases h0 : m.FL % 2 = 0
    · rw [if_pos h0] at hjne
      obtain ⟨v, hv, hpure⟩ := bind_ok_inv hjne
      have hn1 := pure_ok_inv hpure
      refine ⟨fun _ => ?_, fun hc => absurd h0 hc⟩
      rw [← hn1]
      exact hv
    · rw [if_neg h0, pure_eq_ok] at hjne
      injection hjne with hn1
      refine ⟨fun hc => absurd hc h0, fun _ => ?_⟩
      rw [← hn1]

/-- Witness machine for the branch law: Equal bit set (FL = 1), R0 = 9,
register operand byte 0 at `ram[1]`. -/
def jeqW : CPU :=
  { initCPU.load [85, 0] with reg := [9, 0, 0, 0, 0, 0, 0, 255], FL := 1 }

/-- Result of executing JEQ on the witness machine. -/
def jeqW1 : CPU := ((CPU.jeq jeqW).toOption).getD initCPU

/-- Result of executing JNE on the witness machine. -/
def jeqW2 : CPU := ((CPU.jne jeqW).toOption).getD initCPU

theorem jeq_jne_branch_witness :
    ((jeqW.FL % 2 = 1 → pyGet jeqW.reg 0 = Except.ok jeqW1.PC) ∧
     (jeqW.FL % 2 ≠ 1 → jeqW1.PC = jeqW.PC + 2)) ∧
    ((jeqW.FL % 2 = 0 → pyGet jeqW.reg 0 = Except.ok jeqW2.PC) ∧
     (jeqW.FL % 2 ≠ 0 → jeqW2.PC = jeqW.PC + 2)) :=
  jeq_jne_branch jeqW jeqW1 jeqW2 0 rfl rfl rfl

/-- Claim C6: CALL at `call_site = m.PC` decrements SP (register 7) from
`sp` to `sp - 1`, writes `call_site + 2` at `ram[sp - 1]`, and jumps to the
operand register's (post-decrement) value; a RET executed from any later
state `mm` whose SP and whose stack cell at `sp - 1` are unchanged sets PC
back to exactly `call_site + 2` and restores SP to its pre-CALL value
`sp`. -/
theorem call_ret_roundtrip (m m1 mm m2 : CPU) (sp r : Int)
    (hsp : pyGet m.reg 7 = Except.ok sp)
    (hcall : m.call = Except.ok m1)
    (hr : pyGet m1.ram (m.PC + 1) = Except.ok r)
    (hmmsp : pyGet mm.reg 7 = Except.ok (sp - 1))
    (hmmram : pyGet mm.ram (sp - 1) = pyGet m1.ram (sp - 1))
    (hret : mm.ret = Except.ok m2) :
    pyGet m1.reg 7 = Except.ok (sp - 1) ∧
    pyGet m1.ram (sp - 1) = Except.ok (m.PC + 2) ∧
    pyGet m1.reg r = Except.ok m1.PC ∧
    m2.PC = m.PC + 2 ∧
    pyGet m2.reg 7 = Except.ok sp := by
  unfold CPU.call at hcall
  rw [hsp, ok_bind] at hcall
  obtain ⟨reg1, hset1, hcall⟩ := bind_ok_inv hcall
  have hsp1 : pyGet reg1 7 = Except.ok (sp - 1) := pyGet_pySet_self hset1
  rw [hsp1, ok_bind] at hcall
  obtain ⟨ram1, hram1, hcall⟩ := bind_ok_inv hcall
  obtain ⟨register, hregister, hcall⟩ := bind_ok_inv hcall
  obtain ⟨v, hv, hcall⟩ := bind_ok_inv hcall
  have hm1 := pure_ok_inv hcall
  have hm1reg : m1.reg = reg1 := by rw [← hm1]
  have hm1ram : m1.ram = ram1 := by rw [← hm1]
  have hm1PC : m1.PC = v := by rw [← hm1]
  have hc1 : pyGet m1.reg 7 = Except.ok (sp - 1) := by rw [hm1reg]; exact hsp1
  have hc2 : pyGet m1.ram (sp - 1) = Except.ok (m.PC + 2) := by
    rw [hm1ram]; exact pyGet_pySet_self hram1
  have hrr : register = r := by
    rw [hm1ram] at hr
    rw [hregister] at hr
    injection hr
  have hc3 : pyGet m1.reg r = Except.ok m1.PC := by
    rw [hm1reg, hm1PC, ← hrr]; exact hv
  unfold CPU.ret at hret
  rw [hmmsp, ok_bind] at hret
  have hmmval : pyGet mm.ram (sp - 1) = Except.ok (m.PC + 2) := by
    rw [hmmram]; exact hc2
  rw [hmmval] at hret
  simp only [ok_bind] at hret
  obtain ⟨regR, hsetR, hret⟩ := bind_ok_inv hret
  have hm2 := pure_ok_inv hret
  have hc4 : m2.PC = m.PC + 2 := by rw [← hm2]
  have hc5 : pyGet m2.reg 7 = Except.ok sp := by
    have h5 : pyGet regR 7 = Except.ok (sp - 1 + 1) := pyGet_pySet_self hsetR
    rw [(by omega : sp - 1 + 1 = sp)] at h5
    rw [← hm2]
    exact h5
  exact ⟨hc1, hc2, hc3, hc4, hc5⟩

/-- Witness machine for the CALL/RET roundtrip: R0 = 10, CALL R0 at
address 0, RET at address 10. -/
def callRetW : CPU :=
  { initCPU.load [80, 0, 0, 0, 0, 0, 0, 0, 0, 0, 17] with
      reg := [10, 0, 0, 0, 0, 0, 0, 255] }

/-- Machine after the CALL. -/
def callRetW1 : CPU := ((CPU.call callRetW).toOption).getD initCPU

/-- Machine after the immediately following RET. -/
def callRetW2 : CPU := ((CPU.ret callRetW1).toOption).getD initCPU

theorem call_ret_roundtrip_witness :
    pyGet callRetW1.reg 7 = Except.ok (255 - 1) ∧
    pyGet callRetW1.ram (255 - 1) = Except.ok (callRetW.PC + 2) ∧
    pyGet callRetW1.reg 0 = Except.ok callRetW1.PC ∧
    callRetW2.PC = callRetW.PC + 2 ∧
    pyGet callRetW2.reg 7 = Except.ok 255 :=
  call_ret_roundtrip callRetW callRetW1 callRetW1 callRetW2 255 0
    rfl rfl rfl rfl rfl rfl

/-- Claim C7: PUSH with register operand byte `r` followed immediately by
POP with the same operand byte leaves the value of register `r` unchanged
and restores SP (register 7) to its pre-PUSH value — including the corner
case where `r` designates register 7 itself. -/
theorem push_pop_roundtrip (m m1 m2 : CPU) (r : Int)
    (hr1 : pyGet m.ram (m.PC + 1) = Except.ok r)
    (hpush : m.push = Except.ok m1)
    (hr2 : pyGet m1.ram (m1.PC + 1) = Except.ok r)
    (hpop : m1.pop = Except.ok m2) :
    pyGet m2.reg r = pyGet m.reg r ∧ pyGet m2.reg 7 = pyGet m.reg 7 := by
  unfold CPU.push at hpush
  rw [hr1, ok_bind] at hpush
  obtain ⟨sp, hsp, hpush⟩ := bind_ok_inv hpush
  obtain ⟨reg1, hset1, hpush⟩ := bind_ok_inv hpush
  obtain ⟨rv, hrv, hpush⟩ := bind_ok_inv hpush
  have hsp1 : pyGet reg1 7 = Except.ok (sp - 1) := pyGet_pySet_self hset1
  rw [hsp1, ok_bind] at hpush
  obtain ⟨ram1, hram1, hpush⟩ := bind_ok_inv hpush
  have hm1 := pure_ok_inv hpush
  have hm1reg : m1.reg = reg1 := by rw [← hm1]
  have hm1ram : m1.ram = ram1 := by rw [← hm1]
  have hm1PC : m1.PC = m.PC + 2 := by rw [← hm1]
  unfold CPU.pop at hpop
  rw [hm1reg, hm1ram, hm1PC] at hpop
  rw [hsp1, ok_bind] at hpop
  have hval : pyGet ram1 (sp - 1) = Except.ok rv := pyGet_pySet_self hram1
  rw [hval, ok_bind] at hpop
  rw [hm1ram, hm1PC] at hr2
  rw [hr2, ok_bind] at hpop
  obtain ⟨regA, hsetA, hpop⟩ := bind_ok_inv hpop
  obtain ⟨sp3, hsp3, hpop⟩ := bind_ok_inv hpop
  obtain ⟨regB, hsetB, hpop⟩ := bind_ok_inv hpop
  have hm2 := pure_ok_inv hpop
  have hm2reg : m2.reg = regB := by rw [← hm2]
  -- index resolution facts
  obtain ⟨k7, hk7, hk7lt, hget7⟩ := pyGet_ok_inv hsp
  have hk7e : k7 = 7 := by
    have := (pyIndex_of_nonneg (by decide) hk7).1
    omega
  subst hk7e
  obtain ⟨k7b, hk7b, _, hreg1⟩ := pySet_ok_inv hset1
  rw [hk7] at hk7b
  injection hk7b with hk7b
  subst hk7b
  have hlen1 : reg1.length = m.reg.length := by rw [hreg1, List.length_set]
  obtain ⟨kr, hkr, hkrlt, hgetr⟩ := pyGet_ok_inv hrv
  rw [hlen1] at hkr hkrlt
  obtain ⟨kr2, hkr2, _, hregA⟩ := pySet_ok_inv hsetA
  rw [hlen1, hkr] at hkr2
  injection hkr2 with hkr2
  subst hkr2
  have hlenA : regA.length = m.reg.length := by rw [hregA, List.length_set, hlen1]
  obtain ⟨k7c, hk7c, _, hregB⟩ := pySet_ok_inv hsetB
  rw [hlenA, hk7] at hk7c
  injection hk7c with hk7c
  subst hk7c
  have hlenB : regB.length = m.reg.length := by rw [hregB, List.length_set, hlenA]
  -- sp3 is the (possibly just-rewritten) register 7 of regA
  obtain ⟨k7d, hk7d, _, hget3⟩ := pyGet_ok_inv hsp3
  rw [hlenA, hk7] at hk7d
  injection hk7d with hk7d
  subst hk7d
  -- pyGet values on both sides, resolved at kr and at 7
  have hIdxrB : pyIndex regB.length r = some kr := by rw [hlenB]; exact hkr
  have hIdx7B : pyIndex regB.length 7 = some 7 := by rw [hlenB]; exact hk7
  have hgetm : pyGet m.reg r = Except.ok (m.reg.getD kr 0) := pyGet_eq hkr
  have hgetm7 : pyGet m.reg 7 = Except.ok sp := hsp
  by_cases hcase : kr = 7
  · subst hcase
    -- the operand register is register 7: the pushed value is the
    -- already-decremented SP, and the POP's final increment restores it
    have hrv_val : rv = sp - 1 := by
      rw [hreg1] at hgetr
      rw [getD_set_self m.reg 7 (sp - 1) hk7lt] at hgetr
      omega
    have hsp3_val : sp3 = sp - 1 := by
      rw [hregA, hreg1] at hget3
      rw [getD_set_self (m.reg.set 7 (sp - 1)) 7 rv
        (by rw [List.length_set]; exact hk7lt)] at hget3
      omega
    have hB : regB.getD 7 0 = sp := by
      rw [hregB]
      rw [getD_set_self regA 7 (sp3 + 1) (by rw [hlenA]; exact hk7lt)]
      omega
    constructor
    · rw [hm2reg, pyGet_eq hIdxrB, hB, hgetm, hget7]
    · rw [hm2reg, pyGet_eq hIdx7B, hB, hgetm7]
  · -- ordinary register: the pushed value is the register's own value
    have hrv_val : rv = m.reg.getD kr 0 := by
      rw [hreg1] at hgetr
      rw [getD_set_ne m.reg 7 kr (sp - 1) (fun h => hcase h.symm)] at hgetr
      omega
    have hsp3_val : sp3 = sp - 1 := by
      rw [hregA] at hget3
      rw [getD_set_ne reg1 kr 7 rv hcase] at hget3
      rw [hreg1] at hget3
      rw [getD_set_self m.reg 7 (sp - 1) hk7lt] at hget3
      omega
    have hBr : regB.getD kr 0 = m.reg.getD kr 0 := by
      rw [hregB]
      rw [getD_set_ne regA 7 kr (sp3 + 1) (fun h => hcase h.symm)]
      rw [hregA]
      rw [getD_set_self reg1 kr rv (by rw [hlen1]; exact hkrlt)]
      omega
    have hB7 : regB.getD 7 0 = sp := by
      rw [hregB]
      rw [getD_set_self regA 7 (sp3 + 1) (by rw [hlenA]; exact hk7lt)]
      omega
    constructor
    · rw [hm2reg, pyGet_eq hIdxrB, hBr, hgetm]
    · rw [hm2reg, pyGet_eq hIdx7B, hB7, hgetm7]

/-- One unfolding of the fuelled run loop. -/
lemma run_succ (f : Nat) (m : CPU) :
    run (f + 1) m = if m.running then step m >>= run f else Except.ok (some m) := rfl

/-- Claim C3, amended: when the running machine fetches an opcode byte `b`
with no branchtable entry, the whole run loop terminates at once with an
uncaught `KeyError b` — a fault identifying the offending byte (but, per
the counterexample, not the PC); execution never continues past the
unrecognized opcode. -/
theorem unsupported_opcode_halts (fuel : Nat) (m : CPU) (b : Int)
    (hrun : m.running = true)
    (hfetch : pyGet m.ram m.PC = Except.ok b)
    (hmiss : branchtable b = none) :
    run (fuel + 1) m = Except.error (PyErr.keyError b) := by
  rw [run_succ, hrun, if_pos rfl]
  unfold step CPU.ram_read
  rw [hfetch, ok_bind, hmiss]
  rfl

theorem unsupported_opcode_halts_witness :
    run 10 (initCPU.load badOpProgA) = Except.error (PyErr.keyError 255) :=
  unsupported_opcode_halts 9 (initCPU.load badOpProgA) 255 rfl rfl rfl

lemma alu_ram {m m1 : CPU} {op : String} {a b : Int}
    (h : m.alu op a b = Except.ok m1) : m1.ram = m.ram := by
  unfold CPU.alu at h
  split_ifs at h
  · obtain ⟨va, _, h⟩ := bind_ok_inv h
    obtain ⟨vb, _, h⟩ := bind_ok_inv h
    obtain ⟨reg1, _, h⟩ := bind_ok_inv h
    rw [← pure_ok_inv h]
  · obtain ⟨va, _, h⟩ := bind_ok_inv h
    obtain ⟨vb, _, h⟩ := bind_ok_inv h
    split at h
    · rw [← pure_ok_inv h]
    · rw [← pure_ok_inv h]

lemma ldi_ram_length {m m1 : CPU} (h : m.ldi = Except.ok m1) :
    m1.ram.length = m.ram.length := by
  unfold CPU.ldi CPU.ram_read at h
  obtain ⟨a, _, h⟩ := bind_ok_inv h
  obtain ⟨b, _, h⟩ := bind_ok_inv h
  obtain ⟨reg1, _, h⟩ := bind_ok_inv h
  rw [← pure_ok_inv h]

lemma prn_ram_length {m m1 : CPU} (h : m.prn = Except.ok m1) :
    m1.ram.length = m.ram.length := by
  unfold CPU.prn CPU.ram_read at h
  obtain ⟨a, _, h⟩ := bind_ok_inv h
  obtain ⟨v, _, h⟩ := bind_ok_inv h
  rw [← pure_ok_inv h]

lemma mul_ram_length {m m1 : CPU} (h : m.mul = Except.ok m1) :
    m1.ram.length = m.ram.length := by
  unfold CPU.mul CPU.ram_read at h
  obtain ⟨a, _, h⟩ := bind_ok_inv h
  obtain ⟨b, _, h⟩ := bind_ok_inv h
  obtain ⟨pa, _, h⟩ := bind_ok_inv h
  obtain ⟨pb, _, h⟩ := bind_ok_inv h
  obtain ⟨va, _, h⟩ := bind_ok_inv h
  obtain ⟨vb, _, h⟩ := bind_ok_inv h
  obtain ⟨reg1, _, h⟩ := bind_ok_inv h
  rw [← pure_ok_inv h]

lemma hlt_ram_length {m m1 : CPU} (h : m.hlt = Except.ok m1) :
    m1.ram.length = m.ram.length := by
  unfold CPU.hlt at h
  rw [← pure_ok_inv h]

lemma push_ram_length {m m1 : CPU} (h : m.push = Except.ok m1) :
    m1.ram.length = m.ram.length := by
  unfold CPU.push at h
  obtain ⟨register, _, h⟩ := bind_ok_inv h
  obtain ⟨sp, _, h⟩ := bind_ok_inv h
  obtain ⟨reg1, _, h⟩ := bind_ok_inv h
  obtain ⟨rv, _, h⟩ := bind_ok_inv h
  obtain ⟨sp1, _, h⟩ := bind_ok_inv h
  obtain ⟨ram1, h6, h⟩ := bind_ok_inv h
  rw [← pure_ok_inv h]
  exact length_pySet h6

lemma pop_ram_length {m m1 : CPU} (h : m.pop = Except.ok m1) :
    m1.ram.length = m.ram.length := by
  unfold CPU.pop at h
  obtain ⟨sp, _, h⟩ := bind_ok_inv h
  obtain ⟨value, _, h⟩ := bind_ok_inv h
  obtain ⟨register, _, h⟩ := bind_ok_inv h
  obtain ⟨reg1, _, h⟩ := bind_ok_inv h
  obtain ⟨sp2, _, h⟩ := bind_ok_inv h
  obtain ⟨reg2, _, h⟩ := bind_ok_inv h
  rw [← pure_ok_inv h]

lemma call_ram_length {m m1 : CPU} (h : m.call = Except.ok m1) :
    m1.ram.length = m.ram.length := by
  unfold CPU.call at h
  obtain ⟨sp, _, h⟩ := bind_ok_inv h
  obtain ⟨reg1, _, h⟩ := bind_ok_inv h
  obtain ⟨sp1, _, h⟩ := bind_ok_inv h
  obtain ⟨ram1, h4, h⟩ := bind_ok_inv h
  obtain ⟨register, _, h⟩ := bind_ok_inv h
  obtain ⟨v, _, h⟩ := bind_ok_inv h
  rw [← pure_ok_inv h]
  exact length_pySet h4

lemma ret_ram_length {m m1 : CPU} (h : m.ret = Except.ok m1) :
    m1.ram.length = m.ram.length := by
  unfold CPU.ret at h
  obtain ⟨sp, _, h⟩ := bind_ok_inv h
  obtain ⟨ra, _, h⟩ := bind_ok_inv h
  obtain ⟨sp2, _, h⟩ := bind_ok_inv h
  obtain ⟨reg1, _, h⟩ := bind_ok_inv h
  rw [← pure_ok_inv h]

lemma add_ram_length {m m1 : CPU} (h : m.add = Except.ok m1) :
    m1.ram.length = m.ram.length := by
  unfold CPU.add at h
  obtain ⟨r1, _, h⟩ := bind_ok_inv h
  obtain ⟨r2, _, h⟩ := bind_ok_inv h
  obtain ⟨mA, hA, h⟩ := bind_ok_inv h
  rw [← pure_ok_inv h]
  have := alu_ram hA
  simp only [this]

lemma compare_ram_length {m m1 : CPU} (h : m.compare = Except.ok m1) :
    m1.ram.length = m.ram.length := by
  unfold CPU.compare at h
  obtain ⟨r1, _, h⟩ := bind_ok_inv h
  obtain ⟨r2, _, h⟩ := bind_ok_inv h
  obtain ⟨mA, hA, h⟩ := bind_ok_inv h
  rw [← pure_ok_inv h]
  have := alu_ram hA
  simp only [this]

lemma jmp_ram_length {m m1 : CPU} (h : m.jmp = Except.ok m1) :
    m1.ram.length = m.ram.length := by
  unfold CPU.jmp at h
  obtain ⟨register, _, h⟩ := bind_ok_inv h
  obtain ⟨v, _, h⟩ := bind_ok_inv h
  rw [← pure_ok_inv h]

lemma jeq_ram_length {m m1 : CPU} (h : m.jeq = Except.ok m1) :
    m1.ram.length = m.ram.length := by
  unfold CPU.jeq at h
  obtain ⟨register, _, h⟩ := bind_ok_inv h
  split at h
  · obtain ⟨v, _, h⟩ := bind_ok_inv h
    rw [← pure_ok_inv h]
  · rw [← pure_ok_inv h]

lemma jne_ram_length {m m1 : CPU} (h : m.jne = Except.ok m1) :
    m1.ram.length = m.ram.length := by
  unfold CPU.jne at h
  obtain ⟨register, _, h⟩ := bind_ok_inv h
  split at h
  · obtain ⟨v, _, h⟩ := bind_ok_inv h
    rw [← pure_ok_inv h]
  · rw [← pure_ok_inv h]

/-- Claim C8, amended: when a loop iteration executes without an exception,
the fetch resolved to a valid memory cell, which for a 256-cell ram means
`-256 ≤ PC < 256` (Python list indexing accepts negative indices) — the
spec's bound `0 ≤ PC < 256` is not maintained, as the counterexample
reaching a fetch at PC = 256 shows; the step also preserves the ram size,
so the bound applies at every successful fetch of a run. -/
theorem fetch_in_range (m m1 : CPU) (h256 : m.ram.length = 256)
    (hstep : step m = Except.ok m1) :
    (-256 ≤ m.PC ∧ m.PC < 256) ∧ m1.ram.length = 256 := by
  unfold step CPU.ram_read at hstep
  obtain ⟨b, hb, hstep⟩ := bind_ok_inv hstep
  obtain ⟨k, hk, _, _⟩ := pyGet_ok_inv hb
  rw [h256] at hk
  constructor
  · unfold pyIndex at hk
    split_ifs at hk with h1 h2
    · omega
    · omega
  · rw [← h256]
    unfold branchtable at hstep
    by_cases h1 : b = LDI
    · rw [if_pos h1] at hstep; exact ldi_ram_length hstep
    rw [if_neg h1] at hstep
    by_cases h2 : b = PRN
    · rw [if_pos h2] at hstep; exact prn_ram_length hstep
    rw [if_neg h2] at hstep
    by_cases h3 : b = MUL
    · rw [if_pos h3] at hstep; exact mul_ram_length hstep
    rw [if_neg h3] at hstep
    by_cases h4 : b = HLT
    · rw [if_pos h4] at hstep; exact hlt_ram_length hstep
    rw [if_neg h4] at hstep
    by_cases h5 : b = PUSH
    · rw [if_pos h5] at hstep; exact push_ram_length hstep
    rw [if_neg h5] at hstep
    by_cases h6 : b = POP
    · rw [if_pos h6] at hstep; exact pop_ram_length hstep
    rw [if_neg h6] at hstep
    by_cases h7 : b = CALL
    · rw [if_pos h7] at hstep; exact call_ram_length hstep
    rw [if_neg h7] at hstep
    by_cases h8 : b = RET
    · rw [if_pos h8] at hstep; exact ret_ram_length hstep
    rw [if_neg h8] at hstep
    by_cases h9 : b = ADD
    · rw [if_pos h9] at hstep; exact add_ram_length hstep
    rw [if_neg h9] at hstep
    by_cases h10 : b = CMP
    · rw [if_pos h10] at hstep; exact compare_ram_length hstep
    rw [if_neg h10] at hstep
    by_cases h11 : b = JMP
    · rw [if_pos h11] at hstep; exact jmp_ram_length hstep
    rw [if_neg h11] at hstep
    by_cases h12 : b = JEQ
    · rw [if_pos h12] at hstep; exact jeq_ram_length hstep
    rw [if_neg h12] at hstep
    by_cases h13 : b = JNE
    · rw [if_pos h13] at hstep; exact jne_ram_length hstep
    rw [if_neg h13] at hstep
    cases hstep

/-- Machine after one instruction of the demo program, used to witness the
fetch-bound theorem at a concrete input. -/
def fetchW1 : CPU := ((step (initCPU.load mulDemoProg)).toOption).getD initCPU

theorem fetch_in_range_witness :
    (-256 ≤ (initCPU.load mulDemoProg).PC ∧ (initCPU.load mulDemoProg).PC < 256) ∧
    fetchW1.ram.length = 256 :=
  fetch_in_range (initCPU.load mulDemoProg) fetchW1 rfl rfl

/-- A computation that can only fail with an IndexError. -/
def onlyIndexErr {α : Type} (r : Except PyErr α) : Prop :=
  ∀ e, r = Except.error e → e = PyErr.indexError

lemma onlyIndexErr_pyGet (xs : List Int) (i : Int) : onlyIndexErr (pyGet xs i) := by
  intro e he
  unfold pyGet at he
  cases hk : pyIndex xs.length i with
  | none =>
    rw [hk] at he
    injection he with he
    exact he.symm
  | some k => rw [hk] at he; cases he

lemma onlyIndexErr_pySet (xs : List Int) (i v : Int) :
    onlyIndexErr (pySet xs i v) := by
  intro e he
  unfold pySet at he
  cases hk : pyIndex xs.length i with
  | none =>
    rw [hk] at he
    injection he with he
    exact he.symm
  | some k => rw [hk] at he; cases he

lemma onlyIndexErr_pure {α : Type} (a : α) :
    onlyIndexErr (pure a : Except PyErr α) := by
  intro e he
  cases he

lemma onlyIndexErr_bind {α β : Type} {x : Except PyErr α}
    {f : α → Except PyErr β} (hx : onlyIndexErr x)
    (hf : ∀ a, onlyIndexErr (f a)) : onlyIndexErr (x >>= f) := by
  intro e he
  cases x with
  | ok a =>
    rw [ok_bind] at he
    exact hf a e he
  | error e2 =>
    rw [error_bind] at he
    injection he with he
    rw [← he]
    exact hx e2 rfl

lemma onlyIndexErr_ite {α : Type} {c : Prop} [Decidable c]
    {x y : Except PyErr α} (hx : onlyIndexErr x) (hy : onlyIndexErr y) :
    onlyIndexErr (if c then x else y) := by
  split
  · exact hx
  · exact hy

lemma alu_add_onlyIndexErr (m : CPU) (a b : Int) :
    onlyIndexErr (m.alu "ADD" a b) := by
  unfold CPU.alu
  rw [if_pos rfl]
  exact onlyIndexErr_bind (onlyIndexErr_pyGet _ _) fun va =>
    onlyIndexErr_bind (onlyIndexErr_pyGet _ _) fun vb =>
      onlyIndexErr_bind (onlyIndexErr_pySet _ _ _) fun reg1 =>
        onlyIndexErr_pure _

lemma alu_cmp_onlyIndexErr (m : CPU) (a b : Int) :
    onlyIndexErr (m.alu "CMP" a b) := by
  unfold CPU.alu
  rw [if_neg (by decide), if_pos rfl]
  exact onlyIndexErr_bind (onlyIndexErr_pyGet _ _) fun va =>
    onlyIndexErr_bind (onlyIndexErr_pyGet _ _) fun vb =>
      onlyIndexErr_ite (onlyIndexErr_pure _) (onlyIndexErr_pure _)

lemma ldi_onlyIndexErr (m : CPU) : onlyIndexErr m.ldi := by
  unfold CPU.ldi CPU.ram_read
  exact onlyIndexErr_bind (onlyIndexErr_pyGet _ _) fun a =>
    onlyIndexErr_bind (onlyIndexErr_pyGet _ _) fun b =>
      onlyIndexErr_bind (onlyIndexErr_pySet _ _ _) fun reg1 =>
        onlyIndexErr_pure _

lemma prn_onlyIndexErr (m : CPU) : onlyIndexErr m.prn := by
  unfold CPU.prn CPU.ram_read
  exact onlyIndexErr_bind (onlyIndexErr_pyGet _ _) fun a =>
    onlyIndexErr_bind (onlyIndexErr_pyGet _ _) fun v =>
      onlyIndexErr_pure _

lemma mul_onlyIndexErr (m : CPU) : onlyIndexErr m.mul := by
  unfold CPU.mul CPU.ram_read
  exact onlyIndexErr_bind (onlyIndexErr_pyGet _ _) fun a =>
    onlyIndexErr_bind (onlyIndexErr_pyGet _ _) fun b =>
      onlyIndexErr_bind (onlyIndexErr_pyGet _ _) fun pa =>
        onlyIndexErr_bind (onlyIndexErr_pyGet _ _) fun pb =>
          onlyIndexErr_bind (onlyIndexErr_pyGet _ _) fun va =>
            onlyIndexErr_bind (onlyIndexErr_pyGet _ _) fun vb =>
              onlyIndexErr_bind (onlyIndexErr_pySet _ _ _) fun reg1 =>
                onlyIndexErr_pure _

lemma hlt_onlyIndexErr (m : CPU) : onlyIndexErr m.hlt := by
  unfold CPU.hlt
  exact onlyIndexErr_pure _

lemma push_onlyIndexErr (m : CPU) : onlyIndexErr m.push := by
  unfold CPU.push
  exact onlyIndexErr_bind (onlyIndexErr_pyGet _ _) fun register =>
    onlyIndexErr_bind (onlyIndexErr_pyGet _ _) fun sp =>
      onlyIndexErr_bind (onlyIndexErr_pySet _ _ _) fun reg1 =>
        onlyIndexErr_bind (onlyIndexErr_pyGet _ _) fun rv =>
          onlyIndexErr_bind (onlyIndexErr_pyGet _ _) fun sp1 =>
            onlyIndexErr_bind (onlyIndexErr_pySet _ _ _) fun ram1 =>
              onlyIndexErr_pure _

lemma pop_onlyIndexErr (m : CPU) : onlyIndexErr m.pop := by
  unfold CPU.pop
  exact onlyIndexErr_bind (onlyIndexErr_pyGet _ _) fun sp =>
    onlyIndexErr_bind (onlyIndexErr_pyGet _ _) fun value =>
      onlyIndexErr_bind (onlyIndexErr_pyGet _ _) fun register =>
        onlyIndexErr_bind (onlyIndexErr_pySet _ _ _) fun reg1 =>
          onlyIndexErr_bind (onlyIndexErr_pyGet _ _) fun sp2 =>
            onlyIndexErr_bind (onlyIndexErr_pySet _ _ _) fun reg2 =>
              onlyIndexErr_pure _

lemma call_onlyIndexErr (m : CPU) : onlyIndexErr m.call := by
  unfold CPU.call
  exact onlyIndexErr_bind (onlyIndexErr_pyGet _ _) fun sp =>
    onlyIndexErr_bind (onlyIndexErr_pySet _ _ _) fun reg1 =>
      onlyIndexErr_bind (onlyIndexErr_pyGet _ _) fun sp1 =>
        onlyIndexErr_bind (onlyIndexErr_pySet _ _ _) fun ram1 =>
          onlyIndexErr_bind (onlyIndexErr_pyGet _ _) fun register =>
            onlyIndexErr_bind (onlyIndexErr_pyGet _ _) fun v =>
              onlyIndexErr_pure _

lemma ret_onlyIndexErr (m : CPU) : onlyIndexErr m.ret := by
  unfold CPU.ret
  exact onlyIndexErr_bind (onlyIndexErr_pyGet _ _) fun sp =>
    onlyIndexErr_bind (onlyIndexErr_pyGet _ _) fun ra =>
      onlyIndexErr_bind (onlyIndexErr_pyGet _ _) fun sp2 =>
        onlyIndexErr_bind (onlyIndexErr_pySet _ _ _) fun reg1 =>
          onlyIndexErr_pure _

lemma add_onlyIndexErr (m : CPU) : onlyIndexErr m.add := by
  unfold CPU.add
  exact onlyIndexErr_bind (onlyIndexErr_pyGet _ _) fun r1 =>
    onlyIndexErr_bind (onlyIndexErr_pyGet _ _) fun r2 =>
      onlyIndexErr_bind (alu_add_onlyIndexErr _ _ _) fun mA =>
        onlyIndexErr_pure _

lemma compare_onlyIndexErr (m : CPU) : onlyIndexErr m.compare := by
  unfold CPU.compare
  exact onlyIndexErr_bind (onlyIndexErr_pyGet _ _) fun r1 =>
    onlyIndexErr_bind (onlyIndexErr_pyGet _ _) fun r2 =>
      onlyIndexErr_bind (alu_cmp_onlyIndexErr _ _ _) fun mA =>
        onlyIndexErr_pure _

lemma jmp_onlyIndexErr (m : CPU) : onlyIndexErr m.jmp := by
  unfold CPU.jmp
  exact onlyIndexErr_bind (onlyIndexErr_pyGet _ _) fun register =>
    onlyIndexErr_bind (onlyIndexErr_pyGet _ _) fun v =>
      onlyIndexErr_pure _

lemma jeq_onlyIndexErr (m : CPU) : onlyIndexErr m.jeq := by
  unfold CPU.jeq
  exact onlyIndexErr_bind (onlyIndexErr_pyGet _ _) fun register =>
    onlyIndexErr_ite
      (onlyIndexErr_bind (onlyIndexErr_pyGet _ _) fun v => onlyIndexErr_pure _)
      (onlyIndexErr_pure _)

lemma jne_onlyIndexErr (m : CPU) : onlyIndexErr m.jne := by
  unfold CPU.jne
  exact onlyIndexErr_bind (onlyIndexErr_pyGet _ _) fun register =>
    onlyIndexErr_ite
      (onlyIndexErr_bind (onlyIndexErr_pyGet _ _) fun v => onlyIndexErr_pure _)
      (onlyIndexErr_pure _)

/-- One loop iteration can only fail with an IndexError (from an
out-of-range list subscription) or a KeyError (from an unregistered
opcode); in particular, never with the ALU's `raise Exception`. -/
lemma step_err_cases (m : CPU) (e : PyErr) (h : step m = Except.error e) :
    e = PyErr.indexError ∨ ∃ k, e = PyErr.keyError k := by
  unfold step CPU.ram_read at h
  cases hb : pyGet m.ram m.PC with
  | error e2 =>
    have he2 : e2 = PyErr.indexError := onlyIndexErr_pyGet m.ram m.PC e2 hb
    rw [hb, error_bind] at h
    injection h with h
    left
    rw [← h, he2]
  | ok b =>
    rw [hb, ok_bind] at h
    unfold branchtable at h
    by_cases h1 : b = LDI
    · rw [if_pos h1] at h; exact Or.inl (ldi_onlyIndexErr m e h)
    rw [if_neg h1] at h
    by_cases h2 : b = PRN
    · rw [if_pos h2] at h; exact Or.inl (prn_onlyIndexErr m e h)
    rw [if_neg h2] at h
    by_cases h3 : b = MUL
    · rw [if_pos h3] at h; exact Or.inl (mul_onlyIndexErr m e h)
    rw [if_neg h3] at h
    by_cases h4 : b = HLT
    · rw [if_pos h4] at h; exact Or.inl (hlt_onlyIndexErr m e h)
    rw [if_neg h4] at h
    by_cases h5 : b = PUSH
    · rw [if_pos h5] at h; exact Or.inl (push_onlyIndexErr m e h)
    rw [if_neg h5] at h
    by_cases h6 : b = POP
    · rw [if_pos h6] at h; exact Or.inl (pop_onlyIndexErr m e h)
    rw [if_neg h6] at h
    by_cases h7 : b = CALL
    · rw [if_pos h7] at h; exact Or.inl (call_onlyIndexErr m e h)
    rw [if_neg h7] at h
    by_cases h8 : b = RET
    · rw [if_pos h8] at h; exact Or.inl (ret_onlyIndexErr m e h)
    rw [if_neg h8] at h
    by_cases h9 : b = ADD
    · rw [if_pos h9] at h; exact Or.inl (add_onlyIndexErr m e h)
    rw [if_neg h9] at h
    by_cases h10 : b = CMP
    · rw [if_pos h10] at h; exact Or.inl (compare_onlyIndexErr m e h)
    rw [if_neg h10] at h
    by_cases h11 : b = JMP
    · rw [if_pos h11] at h; exact Or.inl (jmp_onlyIndexErr m e h)
    rw [if_neg h11] at h
    by_cases h12 : b = JEQ
    · rw [if_pos h12] at h; exact Or.inl (jeq_onlyIndexErr m e h)
    rw [if_neg h12] at h
    by_cases h13 : b = JNE
    · rw [if_pos h13] at h; exact Or.inl (jne_onlyIndexErr m e h)
    rw [if_neg h13] at h
    right
    refine ⟨b, ?_⟩
    have h14 : Except.error (PyErr.keyError b) = (Except.error e : Except PyErr CPU) := h
    injection h14 with h14
    exact h14.symm

/-- Recognizer for the ALU's internal fatal error: the only
`raise Exception` in the program is `alu`'s "Unsupported ALU operation"
guard, modelled as `PyErr.pyException`. -/
def isALUFault {α : Type} : Except PyErr α → Bool
  | Except.error (PyErr.pyException _) => true
  | _ => false

/-- Claim C9: execution driven by the run loop can never raise the ALU's
"Unsupported ALU operation" error — the only callers of `alu` are the ADD
and CMP handlers, which pass exactly the operation strings "ADD" and "CMP",
so for any fuel and any starting machine the run never produces the ALU
fault (its errors are only IndexError or KeyError). -/
theorem alu_guard_unreachable (fuel : Nat) (m : CPU) :
    isALUFault (run fuel m) = false := by
  induction fuel generalizing m with
  | zero =>
    unfold run
    split
    · rfl
    · rfl
  | succ f ih =>
    rw [run_succ]
    split
    · cases hs : step m with
      | error e =>
        rw [error_bind]
        rcases step_err_cases m e hs with rfl | ⟨k, rfl⟩
        · rfl
        · rfl
      | ok m2 =>
        rw [ok_bind]
        exact ih m2
    · rfl

/-- Witness machine for the stack roundtrip: program PUSH 7; POP 7 (the
corner case where the pushed register is the stack pointer itself). -/
def pushPopW : CPU :=
  { initCPU.load [69, 7, 70, 7] with reg := [1, 2, 3, 4, 5, 6, 7, 255] }

/-- Machine after the PUSH. -/
def pushPopW1 : CPU := ((CPU.push pushPopW).toOption).getD initCPU

/-- Machine after the POP. -/
def pushPopW2 : CPU := ((CPU.pop pushPopW1).toOption).getD initCPU

theorem push_pop_roundtrip_witness :
    pyGet pushPopW2.reg 7 = pyGet pushPopW.reg 7 ∧
    pyGet pushPopW2.reg 7 = pyGet pushPopW.reg 7 :=
  push_pop_roundtrip pushPopW pushPopW1 pushPopW2 7 rfl rfl rfl rfl
